import Mathlib

/-!
Verification model of the Scaffold Environment Generator (`scaffold.py`).

Strings from the Python runtime are modelled as `List Char` (Python indexes
and slices by code point, which matches lists of characters, not UTF-8 byte
positions).  The template parser `parse_env_template`, the secure random
string generator `generate_secure_random_string` and the interactive
`prompt` loop are embedded as pure functions; the filesystem, the stream of
user input lines and the cryptographic random source are passed in
explicitly.  Python exceptions are modelled with `Except`.
-/

namespace Scaffold

/-- The characters removed by Python's `str.strip()` (the ASCII whitespace
characters; the model restricts attention to ASCII input). -/
def isPySpace (c : Char) : Bool :=
  c == ' ' || c == '\t' || c == '\n' || c == '\r' || c == '\x0b' || c == '\x0c'

/-- Model of Python `str.strip()`: drop whitespace from both ends. -/
def pyStrip (s : List Char) : List Char :=
  ((s.dropWhile isPySpace).reverse.dropWhile isPySpace).reverse

/-- The backtick character (U+0060). -/
def backtick : Char := Char.ofNat 96

/-- Model of Python `str.strip("`")`: drop backticks from both ends. -/
def pyStripBT (s : List Char) : List Char :=
  ((s.dropWhile (· == backtick)).reverse.dropWhile (· == backtick)).reverse

/-- Python truthiness fallback `a or b` for strings: `b` when `a` is empty. -/
def pyOr (a b : List Char) : List Char :=
  if a = [] then b else a

/-- A character that may appear in an environment variable name:
the class `[A-Z0-9_]` of the pattern `^([A-Z0-9_]+)=`. -/
def isEnvNameChar (c : Char) : Bool :=
  ('A' ≤ c && c ≤ 'Z') || ('0' ≤ c && c ≤ '9') || c == '_'

/-- Model of `re.match(r"^([A-Z0-9_]+)=", s)`: the pattern matches iff a
nonempty maximal run of `[A-Z0-9_]` characters at the start of `s` is
followed by `=`; the captured group is that run. -/
def envVarName (s : List Char) : Option (List Char) :=
  match s.drop (s.takeWhile isEnvNameChar).length with
  | '=' :: _ =>
      if s.takeWhile isEnvNameChar = [] then none
      else some (s.takeWhile isEnvNameChar)
  | _ => none

/-- Everything after the first `=`: Python `s.split("=", 1)[1]`. -/
def afterFirstEq (s : List Char) : List Char :=
  (s.dropWhile (· ≠ '=')).drop 1

/-!
### Regex engine

A model of the subset of Python's `re` dialect used by the program:
literals, `.`, escapes (`\d \D \w \W \s \S \b \B \A \Z` and escaped
punctuation), character classes with negation and ranges, grouping,
alternation and the quantifiers `* + ?` (with the optional non-greedy `?`
suffix).  Constructs outside the subset (`\xHH`, backreferences, `(?...)`
extensions other than `(?:`, counted repetition) are not modelled.
Compilation returns an error exactly where CPython's `re.compile` raises
`re.error` on the modelled subset.  Matching is a backtracking enumeration
of suffix remainders; only a Boolean full-match verdict is exposed, so
greediness is irrelevant.
-/

/-- Compilation errors of the regex dialect (the cases of `re.error`). -/
inductive RErr where
  | unterminatedSet
  | missingRPar
  | unbalancedRPar
  | nothingToRepeat
  | badEscape
  | danglingBackslash
  | badRange
  | fuel
  deriving Repr, DecidableEq

/-- Human-readable text of a compilation error, modelling the message of
the corresponding `re.error`; every message is nonempty. -/
def rerrText : RErr → List Char
  | .unterminatedSet => ("unterminated character set").toList
  | .missingRPar => ("missing ), unterminated subpattern").toList
  | .unbalancedRPar => ("unbalanced parenthesis").toList
  | .nothingToRepeat => ("nothing to repeat").toList
  | .badEscape => ("bad escape").toList
  | .danglingBackslash => ("bad escape (end of pattern)").toList
  | .badRange => ("bad character range").toList
  | .fuel => ("pattern too deeply nested for the model").toList

/-- One item of a character class `[...]`. -/
inductive ClsItem where
  | lit (c : Char)
  | range (a b : Char)
  | dC | nDC | wC | nWC | sC | nSC
  deriving Repr, DecidableEq

/-- A single-character (or zero-width) regex atom. -/
inductive RAtom where
  | lit (c : Char)
  | anyDot
  | dC | nDC | wC | nWC | sC | nSC
  | cls (neg : Bool) (items : List ClsItem)
  deriving Repr, DecidableEq

/-- Abstract syntax of compiled regexes. -/
inductive Regex where
  | emptyR
  | atom (a : RAtom)
  | seq (p q : Regex)
  | alt (p q : Regex)
  | star (p : Regex)
  | group (p : Regex)
  | bol
  | eol
  | wordB
  | nWordB
  deriving Repr, DecidableEq

/-- Word characters for `\w` and word boundaries (ASCII model of
Python's default Unicode word class). -/
def isWordChar (c : Char) : Bool := c.isAlphanum || c == '_'

/-- Whitespace characters for `\s` (ASCII model). -/
def isSpaceChar (c : Char) : Bool := isPySpace c

/-- Does character `c` satisfy one class item? -/
def clsItemMatch (c : Char) : ClsItem → Bool
  | .lit d => c == d
  | .range a b => a.val ≤ c.val && c.val ≤ b.val
  | .dC => c.isDigit
  | .nDC => !c.isDigit
  | .wC => isWordChar c
  | .nWC => !isWordChar c
  | .sC => isSpaceChar c
  | .nSC => !isSpaceChar c

/-- Does character `c` satisfy one atom? -/
def atomMatch (a : RAtom) (c : Char) : Bool :=
  match a with
  | .lit d => c == d
  | .anyDot => !(c == '\n')
  | .dC => c.isDigit
  | .nDC => !c.isDigit
  | .wC => isWordChar c
  | .nWC => !isWordChar c
  | .sC => isSpaceChar c
  | .nSC => !isSpaceChar c
  | .cls neg items => (items.any (clsItemMatch c)) != neg

/-- Is the current position (identified by the still-unconsumed suffix
`rem` of the subject `full`) a word boundary? -/
def atBoundary (full rem : List Char) : Bool :=
  let pos := full.length - rem.length
  let prevW := if pos = 0 then false
               else match full.get? (pos - 1) with
                    | some c => isWordChar c
                    | none => false
  let nextW := match rem.head? with
               | some c => isWordChar c
               | none => false
  prevW != nextW

/-- Structural size of a regex, used only for fuel bounds. -/
def rSize : Regex → Nat
  | .emptyR => 1
  | .atom _ => 1
  | .seq p q => rSize p + rSize q + 1
  | .alt p q => rSize p + rSize q + 1
  | .star p => rSize p + 1
  | .group p => rSize p + 1
  | .bol => 1
  | .eol => 1
  | .wordB => 1
  | .nWordB => 1

/-- Backtracking matcher: all possible unconsumed suffixes of `rem` after
matching `r`, where `rem` is a suffix of the full subject `full` (needed
for the anchors).  The fuel decreases at every recursive call (plain
structural recursion, so concrete calls evaluate inside the kernel); a
`star` unrolls only on strict progress, so the recursion depth is at most
`rSize r` compounded once per remaining character, and the fuel chosen by
`fullmatchB` below dominates it. -/
def runsM : Nat → Regex → List Char → List Char → List (List Char)
  | 0, _, _, _ => []
  | _ + 1, .emptyR, _, rem => [rem]
  | _ + 1, .atom a, _, rem =>
      match rem with
      | [] => []
      | c :: cs => if atomMatch a c then [cs] else []
  | _ + 1, .bol, full, rem => if rem.length = full.length then [rem] else []
  | _ + 1, .eol, _, rem => if rem.isEmpty then [rem] else []
  | _ + 1, .wordB, full, rem => if atBoundary full rem then [rem] else []
  | _ + 1, .nWordB, full, rem => if atBoundary full rem then [] else [rem]
  | f + 1, .seq p q, full, rem =>
      (runsM f p full rem).flatMap (fun rem2 => runsM f q full rem2)
  | f + 1, .alt p q, full, rem =>
      runsM f p full rem ++ runsM f q full rem
  | f + 1, .group p, full, rem => runsM f p full rem
  | f + 1, .star p, full, rem =>
      rem :: ((runsM f p full rem).filter (fun r2 => r2.length < rem.length)).flatMap
        (fun rem2 => runsM f (.star p) full rem2)

/-- Boolean full match of a compiled regex against a subject string:
model of `re.fullmatch(r, s) is not None` for an already-compiled `r`.
Along every recursive call of `runsM` the measure
`rem.length * (rSize r + 1) + rSize (current subterm)` strictly decreases
(a `star` re-enters only on strict consumption, and matching only ever
consumes forward), so the fuel `(length + 2) * (rSize r + 2)` dominates
the recursion depth. -/
def fullmatchB (r : Regex) (s : List Char) : Bool :=
  (runsM ((s.length + 2) * (rSize r + 2)) r s s).any (fun rem => rem.isEmpty)

/-- Resolution of an escape `\e` inside a character class: either a special
class item or a literal character.  Single-digit octal escapes are
modelled; multi-digit octal, `\xHH` and `\uHHHH` are outside the subset. -/
def clsEsc (e : Char) : Except RErr (Sum ClsItem Char) :=
  if e == 'd' then .ok (.inl .dC)
  else if e == 'D' then .ok (.inl .nDC)
  else if e == 'w' then .ok (.inl .wC)
  else if e == 'W' then .ok (.inl .nWC)
  else if e == 's' then .ok (.inl .sC)
  else if e == 'S' then .ok (.inl .nSC)
  else if e == 'n' then .ok (.inr '\n')
  else if e == 't' then .ok (.inr '\t')
  else if e == 'r' then .ok (.inr '\r')
  else if e == 'f' then .ok (.inr '\x0c')
  else if e == 'v' then .ok (.inr '\x0b')
  else if e == 'a' then .ok (.inr '\x07')
  else if e == 'b' then .ok (.inr '\x08')
  else if '0' ≤ e && e ≤ '7' then .ok (.inr (Char.ofNat (e.toNat - 48)))
  else if e == '8' || e == '9' then .error .badEscape
  else if e.isAlpha then .error .badEscape
  else .ok (.inr e)

/-- Resolution of an escape `\e` outside a character class.
Backreferences (`\1`..`\9`) are outside the modelled subset. -/
def atomEsc (e : Char) : Except RErr Regex :=
  if e == 'd' then .ok (.atom .dC)
  else if e == 'D' then .ok (.atom .nDC)
  else if e == 'w' then .ok (.atom .wC)
  else if e == 'W' then .ok (.atom .nWC)
  else if e == 's' then .ok (.atom .sC)
  else if e == 'S' then .ok (.atom .nSC)
  else if e == 'b' then .ok .wordB
  else if e == 'B' then .ok .nWordB
  else if e == 'A' then .ok .bol
  else if e == 'Z' then .ok .eol
  else if e == 'n' then .ok (.atom (.lit '\n'))
  else if e == 't' then .ok (.atom (.lit '\t'))
  else if e == 'r' then .ok (.atom (.lit '\r'))
  else if e == 'f' then .ok (.atom (.lit '\x0c'))
  else if e == 'v' then .ok (.atom (.lit '\x0b'))
  else if e == 'a' then .ok (.atom (.lit '\x07'))
  else if e == '0' then .ok (.atom (.lit '\x00'))
  else if '1' ≤ e && e ≤ '9' then .error .badEscape
  else if e.isAlpha then .error .badEscape
  else .ok (.atom (.lit e))

/-- Read one raw class element (an escape or a literal character); the
caller decides beforehand whether a `]` closes the class. -/
def clsAtomOf (cs : List Char) : Except RErr (Sum ClsItem Char × List Char) :=
  match cs with
  | [] => .error .unterminatedSet
  | '\\' :: [] => .error .danglingBackslash
  | '\\' :: e :: rest => (clsEsc e).map (fun it => (it, rest))
  | c :: rest => .ok (.inr c, rest)

/-- Parse the body of a character class up to the closing `]`.  A `]` in
the first position is a literal; `a-b` forms a range (rejected when the
endpoints are reversed or an endpoint is a class escape, as in CPython);
a trailing `-` before `]` is a literal. -/
def parseClsBody (fuel : Nat) (first : Bool) (cs : List Char) :
    Except RErr (List ClsItem × List Char) :=
  match fuel with
  | 0 => .error .fuel
  | f + 1 =>
    if !first && cs.head? == some ']' then
      .ok ([], cs.tail)
    else
      match clsAtomOf cs with
      | .error e => .error e
      | .ok (.inl item, rest) =>
          match parseClsBody f false rest with
          | .error e => .error e
          | .ok (items, rest2) => .ok (item :: items, rest2)
      | .ok (.inr c, rest) =>
          match rest with
          | '-' :: ']' :: r4 => .ok ([.lit c, .lit '-'], r4)
          | '-' :: [] => .error .unterminatedSet
          | '-' :: r3 =>
              match clsAtomOf r3 with
              | .error e => .error e
              | .ok (.inl _, _) => .error .badRange
              | .ok (.inr b, r4) =>
                  if c.val ≤ b.val then
                    match parseClsBody f false r4 with
                    | .error e => .error e
                    | .ok (items, rest2) => .ok (.range c b :: items, rest2)
                  else .error .badRange
          | _ =>
              match parseClsBody f false rest with
              | .error e => .error e
              | .ok (items, rest2) => .ok (.lit c :: items, rest2)

/-- Consume the optional non-greedy marker `?` after a quantifier (it does
not change the matched language). -/
def eatLazyQ (cs : List Char) : List Char :=
  match cs with
  | '?' :: rest => rest
  | _ => cs

/-- The four stages of the recursive descent over a pattern:
alternation, concatenation, atom-with-quantifier, bare atom. -/
inductive PStage where
  | altS
  | seqS
  | atomQ
  | atomF
  deriving Repr, DecidableEq

/-- Recursive descent over the pattern, all four stages in one function so
that the fuel decreases at every recursive call (plain structural
recursion, kernel-evaluable).  Stage `altS` parses alternation `a|b`;
`seqS` parses concatenation, stopping at `|`, `)` or the end; `atomQ`
parses one atom with its optional quantifier `*`, `+` or `?` (each
optionally followed by the non-greedy marker `?`); `atomF` parses a bare
atom: group, class, escape, anchor, `.` or literal — a quantifier
character with nothing before it is the error `nothing to repeat`, as in
CPython. -/
def parseRx : Nat → PStage → List Char → Except RErr (Regex × List Char)
  | 0, _, _ => .error .fuel
  | f + 1, .altS, cs =>
    (match parseRx f .seqS cs with
     | .error e => .error e
     | .ok (r1, rest) =>
       match rest with
       | '|' :: rest2 =>
           match parseRx f .altS rest2 with
           | .error e => .error e
           | .ok (r2, rest3) => .ok (.alt r1 r2, rest3)
       | _ => .ok (r1, rest))
  | f + 1, .seqS, cs =>
    (match cs with
     | [] => .ok (.emptyR, [])
     | '|' :: _ => .ok (.emptyR, cs)
     | ')' :: _ => .ok (.emptyR, cs)
     | _ =>
       match parseRx f .atomQ cs with
       | .error e => .error e
       | .ok (a, rest) =>
         match parseRx f .seqS rest with
         | .error e => .error e
         | .ok (b, rest2) => .ok (.seq a b, rest2))
  | f + 1, .atomQ, cs =>
    (match parseRx f .atomF cs with
     | .error e => .error e
     | .ok (a, rest) =>
       match rest with
       | '*' :: r2 => .ok (.star a, eatLazyQ r2)
       | '+' :: r2 => .ok (.seq a (.star a), eatLazyQ r2)
       | '?' :: r2 => .ok (.alt a .emptyR, eatLazyQ r2)
       | _ => .ok (a, rest))
  | f + 1, .atomF, cs =>
    (match cs with
     | [] => .error .fuel
     | '(' :: '?' :: ':' :: rest =>
         match parseRx f .altS rest with
         | .error e => .error e
         | .ok (r, rest2) =>
           match rest2 with
           | ')' :: rest3 => .ok (.group r, rest3)
           | _ => .error .missingRPar
     | '(' :: '?' :: _ => .error .badEscape
     | '(' :: rest =>
         match parseRx f .altS rest with
         | .error e => .error e
         | .ok (r, rest2) =>
           match rest2 with
           | ')' :: rest3 => .ok (.group r, rest3)
           | _ => .error .missingRPar
     | '[' :: '^' :: rest =>
         match parseClsBody (rest.length + 1) true rest with
         | .error e => .error e
         | .ok (items, rest2) => .ok (.atom (.cls true items), rest2)
     | '[' :: rest =>
         match parseClsBody (rest.length + 1) true rest with
         | .error e => .error e
         | .ok (items, rest2) => .ok (.atom (.cls false items), rest2)
     | '\\' :: [] => .error .danglingBackslash
     | '\\' :: e :: rest => (atomEsc e).map (fun r => (r, rest))
     | '^' :: rest => .ok (.bol, rest)
     | '$' :: rest => .ok (.eol, rest)
     | '.' :: rest => .ok (.atom .anyDot, rest)
     | '*' :: _ => .error .nothingToRepeat
     | '+' :: _ => .error .nothingToRepeat
     | '?' :: _ => .error .nothingToRepeat
     | c :: rest => .ok (.atom (.lit c), rest))

/-- Model of `re.compile(pattern)` on the modelled dialect subset:
an abstract syntax tree on success, an `re.error` case on failure.
The fuel `8 * (length + 2)` dominates the descent's call depth, since
every chain of four stage steps consumes at least one character. -/
def compilePattern (cs : List Char) : Except RErr Regex :=
  match parseRx (8 * (cs.length + 2)) .altS cs with
  | .error e => .error e
  | .ok (r, []) => .ok r
  | .ok (_, _ :: _) => .error .unbalancedRPar

/-- Model of `re.fullmatch(pattern, s)` with an uncompiled pattern string:
raises `re.error` when the pattern is invalid. -/
def fullmatchPy (pat s : List Char) : Except RErr Bool :=
  match compilePattern pat with
  | .error e => .error e
  | .ok r => .ok (fullmatchB r s)

/-!
### Template parser (`parse_env_template`)
-/

/-- The metadata record of one declared variable: the keys of the Python
per-variable dict.  `none` and `[]` model an absent key.  The field
`sectionV` models the key `"section"` (the plain name is a Lean keyword). -/
structure Entry where
  sectionV : Option (List Char) := none
  question : Option (List Char) := none
  info : List (List Char) := []
  regex : Option (List Char) := none
  regex_error : Option (List Char) := none
  default : Option (List Char) := none
  deriving Repr, DecidableEq, Inhabited

/-- The empty pending-metadata accumulator (`temp_markdown` after
`clear()`; the `default` field is unused while pending). -/
def emptyTemp : Entry := {}

/-- The classification of one stripped template line. -/
inductive LineClass where
  | sec (t : List Char)
  | quest (t : List Char)
  | infoL (t : List Char)
  | rgx (p : List Char)
  | decl (name : List Char) (dflt : Option (List Char))
  | skip
  deriving Repr, DecidableEq

/-- Classification of a stripped line, in the source's branch order:
section guard (`# ` with a third character that is not a backtick),
question `## `, information `### `, regex ``# ` ``, then the variable
declaration pattern, else ignored.  The declaration's default is the text
after the first `=` (`None` if the line had no `=`, which the match
precludes). -/
def classifyLine (s : List Char) : LineClass :=
  if ['#', ' '].isPrefixOf s ∧ 2 < s.length ∧ s.getD 2 ' ' ≠ backtick then
    .sec (s.drop 2)
  else if ['#', '#', ' '].isPrefixOf s then .quest (s.drop 3)
  else if ['#', '#', '#', ' '].isPrefixOf s then .infoL (s.drop 4)
  else if ['#', ' ', backtick].isPrefixOf s then .rgx (pyStripBT (s.drop 2))
  else
    match envVarName s with
    | some n => .decl n (if s.contains '=' then some (afterFirstEq s) else none)
    | none => .skip

/-- Classification of a stripped line in the precedence order stated by
the specification: regex heading first, then section, question,
information, variable declaration, else ignored. -/
def classifySpec (s : List Char) : LineClass :=
  if ['#', ' ', backtick].isPrefixOf s then .rgx (pyStripBT (s.drop 2))
  else if ['#', ' '].isPrefixOf s then .sec (s.drop 2)
  else if ['#', '#', ' '].isPrefixOf s then .quest (s.drop 3)
  else if ['#', '#', '#', ' '].isPrefixOf s then .infoL (s.drop 4)
  else
    match envVarName s with
    | some n => .decl n (if s.contains '=' then some (afterFirstEq s) else none)
    | none => .skip

/-- Insert-or-overwrite into an insertion-ordered association list: the
model of `dict[k] = v` on a Python dict, which keeps the first-insertion
position of an existing key. -/
def updAssoc (l : List (List Char × Entry)) (k : List Char) (v : Entry) :
    List (List Char × Entry) :=
  match l with
  | [] => [(k, v)]
  | (k', v') :: t => if k' = k then (k, v) :: t else (k', v') :: updAssoc t k v

/-- The keys of an insertion-ordered mapping, in order. -/
def keysOf (l : List (List Char × Entry)) : List (List Char) :=
  l.map Prod.fst

/-- Lookup in an insertion-ordered mapping. -/
def getVal (l : List (List Char × Entry)) (k : List Char) : Option Entry :=
  match l with
  | [] => none
  | (k', v') :: t => if k' = k then some v' else getVal t k

/-- One iteration of the parser loop body on state
`(temp_markdown, final_markdown)`: strip the line, classify it, and
update the pending metadata or capture an entry.  A regex heading stores
the pattern first and adds `regex_error` only when compilation fails
(an earlier `regex_error` is retained, as in the source, which never
deletes the key).  A declaration snapshots the pending metadata plus the
default and clears the accumulator. -/
def stepLine (st : Entry × List (List Char × Entry)) (line : List Char) :
    Entry × List (List Char × Entry) :=
  match classifyLine (pyStrip line) with
  | .sec t => ({ st.1 with sectionV := some t }, st.2)
  | .quest t => ({ st.1 with question := some t }, st.2)
  | .infoL t => ({ st.1 with info := st.1.info ++ [t] }, st.2)
  | .rgx p =>
      let t1 := { st.1 with regex := some p }
      match compilePattern p with
      | .ok _ => (t1, st.2)
      | .error e =>
          ({ t1 with regex_error := some (("Invalid regex: ").toList ++ rerrText e) }, st.2)
  | .decl n d =>
      (emptyTemp,
       updAssoc st.2 n
         { sectionV := st.1.sectionV, question := st.1.question, info := st.1.info,
           regex := st.1.regex, regex_error := st.1.regex_error, default := d })
  | .skip => st

/-- The parsing pass over the template's lines: the loop of
`parse_env_template` after a successful read. -/
def parseLines (lines : List (List Char)) : List (List Char × Entry) :=
  (lines.foldl stepLine (emptyTemp, [])).2

/-- Exceptions that can escape `parse_env_template`:
CPython's `open()` raises `ValueError` on a path with an embedded null
byte, and `ValueError` is not an `OSError`, so the `except (OSError,
IOError)` clause does not catch it. -/
inductive PyExn where
  | valueError
  deriving Repr, DecidableEq

/-- Model of `parse_env_template(filepath)`.  The filesystem is passed in
as `fs`, mapping a path to either the file's lines or the message of an
`OSError`.  Opening a path that contains a null byte raises `ValueError`
before reaching the filesystem (CPython behaviour); an `OSError` is caught
and yields the empty mapping; otherwise the lines are parsed. -/
def parse_env_template (fs : List Char → Except (List Char) (List (List Char)))
    (filepath : List Char) : Except PyExn (List (List Char × Entry)) :=
  if filepath.contains '\x00' then .error .valueError
  else
    match fs filepath with
    | .error _ => .ok []
    | .ok lines => .ok (parseLines lines)

/-!
### Random value generator and prompt
-/

/-- `string.ascii_letters + string.digits`: the 62-character alphabet. -/
def alphabet : List Char :=
  ("abcdefghijklmnopqrstuvwxyzABCDEFGHIJKLMNOPQRSTUVWXYZ0123456789").toList

/-- Model of `generate_secure_random_string(length)`: the random source is
passed in as `pick`, one alphabet index per position. -/
def generate_secure_random_string (pick : Nat → Fin 62) (length : Nat) : List Char :=
  (List.range length).map (fun i => alphabet.getD (pick i).val 'a')

/-- The literal token `random` tested by `input_str.startswith("random")`. -/
def randomTok : List Char := ("random").toList

/-- Model of `re.match(r"random\((\d+)\)", s)` followed by
`int(match.group(1))`: the pattern matches a prefix of `s` iff `s` begins
with `random(`, a nonempty maximal digit run and `)`; the result is the
run's numeric value.  (`\d+` is greedy and `)` is not a digit, so the
maximal run is the only viable capture.) -/
def randomArgLen (s : List Char) : Option Nat :=
  if (("random(").toList).isPrefixOf s then
    let t := s.drop 7
    let ds := t.takeWhile Char.isDigit
    match t.drop ds.length with
    | ')' :: _ =>
        if ds = [] then none
        else some (ds.foldl (fun acc c => acc * 10 + (c.toNat - 48)) 0)
    | _ => none
  else none

/-- Errors that can end a `prompt` call in the model: the input stream
running dry (`EOFError` from `input()`), or `re.error` propagating out of
`re.fullmatch` on an invalid pattern. -/
inductive PromptErr where
  | eof
  | reError (e : RErr)
  deriving Repr, DecidableEq

/-- The resolved first candidate value of `prompt`: the first raw input
stripped, the default on empty input, then the secure-random substitution
when the result starts with `random`. -/
def firstCandidate (pick : Nat → Fin 62) (data : Entry) (i0 : List Char) : List Char :=
  let userValue := data.default.getD []
  let c0 := pyOr (pyStrip i0) userValue
  if randomTok.isPrefixOf c0 then
    generate_secure_random_string pick ((randomArgLen c0).getD 32)
  else c0

/-- The `while not re.fullmatch(...)` retry loop of `prompt`: test the
current candidate, return it on a match, on a mismatch take the next raw
input (stripped, default on empty) with no random substitution.  An
invalid pattern makes `re.fullmatch` raise on the first test. -/
def promptLoop (pat userValue : List Char) :
    List Char → List (List Char) → Except PromptErr (List Char)
  | cand, [] =>
      match fullmatchPy pat cand with
      | .error e => .error (.reError e)
      | .ok b => if b then .ok cand else .error .eof
  | cand, i :: rest =>
      match fullmatchPy pat cand with
      | .error e => .error (.reError e)
      | .ok b =>
          if b then .ok cand
          else promptLoop pat userValue (pyOr (pyStrip i) userValue) rest

/-- Model of `prompt(var, data)` restricted to its value computation (the
box drawing and terminal clearing are display-only).  `inputs` is the
stream of raw `input()` lines; the second component counts the calls to
`generate_secure_random_string`. -/
def promptCore (pick : Nat → Fin 62) (data : Entry) (inputs : List (List Char)) :
    Except PromptErr (List Char) × Nat :=
  match inputs with
  | [] => (.error .eof, 0)
  | i0 :: rest =>
    let userValue := data.default.getD []
    let c0 := pyOr (pyStrip i0) userValue
    let calls : Nat := if randomTok.isPrefixOf c0 then 1 else 0
    let c1 := firstCandidate pick data i0
    match data.regex with
    | none => (.ok c1, calls)
    | some pat => (promptLoop pat userValue c1 rest, calls)

/-- Is a classified line a variable declaration? -/
def isDeclClass : LineClass → Bool
  | .decl _ _ => true
  | _ => false

/-- The compiled form of the pattern `^[a-zA-Z0-9_]+$` used in the
specification's validation example. -/
def rAlnum : Regex :=
  ((compilePattern (("^[a-zA-Z0-9_]+$").toList)).toOption).getD .emptyR

/-!
### Helper lemmas
-/

/-- The head surviving `dropWhile p` does not satisfy `p`. -/
theorem dropWhile_head_false {α : Type} (p : α → Bool) :
    ∀ (l : List α) (c : α) (t : List α), l.dropWhile p = c :: t → p c = false := by
  intro l
  induction l with
  | nil => intro c t h; simp [List.dropWhile] at h
  | cons a as ih =>
      intro c t h
      rw [List.dropWhile_cons] at h
      by_cases hp : p a
      · simp [hp] at h; exact ih c t h
      · simp [hp] at h
        simp [← h.1]
        simpa using hp

/-- A stripped line never ends in whitespace, so it is never the
two-character string `"# "`. -/
theorem pyStrip_ne_hash_space (s : List Char) : pyStrip s ≠ ['#', ' '] := by
  intro h
  unfold pyStrip at h
  have h2 : ((s.dropWhile isPySpace).reverse.dropWhile isPySpace) = [' ', '#'] := by
    have := congrArg List.reverse h
    simpa using this
  have h3 := dropWhile_head_false isPySpace _ _ _ h2
  simp [isPySpace] at h3

/-- On any input other than the impossible stripped line `"# "`, the
source's branch order and the specification's precedence order classify
identically. -/
theorem classifyLine_eq_spec (t : List Char) (ht : t ≠ ['#', ' ']) :
    classifyLine t = classifySpec t := by
  rcases t with _ | ⟨c1, t⟩
  · decide
  rcases t with _ | ⟨c2, t⟩
  · simp [classifyLine, classifySpec, List.isPrefixOf]
  rcases t with _ | ⟨c3, rest⟩
  · by_cases h1 : c1 = '#'
    · by_cases h2 : c2 = ' '
      · subst h1; subst h2; exact absurd rfl ht
      · subst h1; simp [classifyLine, classifySpec, List.isPrefixOf, h2, Ne.symm h2]
    · simp [classifyLine, classifySpec, List.isPrefixOf, h1, Ne.symm h1]
  · by_cases h1 : c1 = '#'
    · by_cases h2 : c2 = ' '
      · by_cases h3 : c3 = backtick
        · subst h1; subst h2; subst h3
          simp [classifyLine, classifySpec, List.isPrefixOf]
        · subst h1; subst h2
          simp [classifyLine, classifySpec, List.isPrefixOf, h3, Ne.symm h3]
      · subst h1
        simp [classifyLine, classifySpec, List.isPrefixOf, h2, Ne.symm h2]
    · simp [classifyLine, classifySpec, List.isPrefixOf, h1, Ne.symm h1]

/-- A line classified as a variable declaration contains an `=`. -/
theorem envVarName_contains_eq (s n : List Char) (h : envVarName s = some n) :
    s.contains '=' = true := by
  unfold envVarName at h
  split at h
  next tail heq =>
    have hmem : '=' ∈ s :=
      List.mem_of_mem_drop (by rw [heq]; exact List.mem_cons_self _ _)
    exact List.elem_eq_true_of_mem hmem
  next => simp at h

/-!
### Claims
-/

/-- C7 (amended): for every line classified as a variable declaration, the
recorded `default` is `some` of the substring after the first `=` — in
particular it is never the absent/`None` value, even for a line `NAME=`
(where the substring is empty); the `None` branch of the source is
unreachable because the declaration pattern requires an `=`. -/
theorem claim7_amended :
    ∀ (s n : List Char) (d : Option (List Char)),
      classifyLine s = .decl n d → d = some (afterFirstEq s) ∧ d ≠ none := by
  intro s n d h
  unfold classifyLine at h
  split_ifs at h
  · cases henv : envVarName s with
    | none => rw [henv] at h; simp at h
    | some n' =>
        rw [henv] at h
        simp only [LineClass.decl.injEq] at h
        exact ⟨h.2.symm, by rw [← h.2]; simp⟩
  · cases henv : envVarName s with
    | none => rw [henv] at h; simp at h
    | some n' => exact absurd (envVarName_contains_eq s n' henv) (by assumption)

/-- C7 witness: the amended claim at the concrete line `VAR=x`. -/
theorem claim7_witness :
    some (("x").toList) = some (afterFirstEq (("VAR=x").toList)) ∧
    (some (("x").toList) : Option (List Char)) ≠ none :=
  claim7_amended (("VAR=x").toList) (("VAR").toList) (some (("x").toList)) (by decide)

/-- C7 counterexample: parsing the template line `VAR=` yields an entry
whose `default` is present and equal to the empty string — not absent, as
the claim states for a line with nothing after the `=`. -/
theorem claim7_counterexample :
    getVal (parseLines [("VAR=\n").toList]) (("VAR").toList) = some { default := some [] } ∧
    ({ default := some [] } : Entry).default ≠ none :=
  ⟨by rfl, by simp⟩

/-- C3: every trimmed line is classified exactly as by the specification's
precedence order (regex heading, section, question, information, variable
assignment, else ignored); three consecutive `### a`, `### b`, `### c`
lines before one declaration yield `info = [a, b, c]`; and the template
`"# S\n## Q?\n### I\nVAR=dflt\n"` parses to exactly the mapping
`VAR ↦ (section S, question Q?, info [I], default dflt)`. -/
theorem claim3_line_classification :
    (∀ line : List Char, classifyLine (pyStrip line) = classifySpec (pyStrip line)) ∧
    parseLines [("### a\n").toList, ("### b\n").toList, ("### c\n").toList, ("V=x\n").toList] =
      [(("V").toList,
        { info := [("a").toList, ("b").toList, ("c").toList], default := some (("x").toList) })] ∧
    parseLines [("# S\n").toList, ("## Q?\n").toList, ("### I\n").toList, ("VAR=dflt\n").toList] =
      [(("VAR").toList,
        { sectionV := some (("S").toList), question := some (("Q?").toList),
          info := [("I").toList], default := some (("dflt").toList) })] :=
  ⟨fun line => classifyLine_eq_spec _ (pyStrip_ne_hash_space line), by rfl, by rfl⟩

/-- C8: inserting under an existing name keeps the key sequence (and hence
the entry's first-insertion position) unchanged, a new name is appended at
the end, the stored entry is always the newly inserted one (last
declaration wins), and the template `A=1, B=2, A=3` parses to `A`
(default 3) still in first position followed by `B` (default 2). -/
theorem claim8_duplicate_names :
    (∀ (l : List (List Char × Entry)) (n : List Char) (e : Entry),
        keysOf (updAssoc l n e) =
          if n ∈ keysOf l then keysOf l else keysOf l ++ [n]) ∧
    (∀ (l : List (List Char × Entry)) (n : List Char) (e : Entry),
        getVal (updAssoc l n e) n = some e) ∧
    parseLines [("A=1").toList, ("B=2").toList, ("A=3").toList] =
      [(("A").toList, { default := some (("3").toList) }),
       (("B").toList, { default := some (("2").toList) })] := by
  refine ⟨?_, ?_, by rfl⟩
  · intro l n e
    induction l with
    | nil => simp [updAssoc, keysOf]
    | cons kv t ih =>
        obtain ⟨k', v'⟩ := kv
        by_cases hk : k' = n
        · subst hk
          simp [updAssoc, keysOf]
        · simp only [updAssoc, keysOf, List.map_cons, if_neg hk]
          simp only [keysOf] at ih
          rw [ih]
          by_cases hmem : n ∈ t.map Prod.fst
          · simp [hmem, Ne.symm hk]
          · simp [hmem, Ne.symm hk]
  · intro l n e
    induction l with
    | nil => simp [updAssoc, getVal]
    | cons kv t ih =>
        obtain ⟨k', v'⟩ := kv
        by_cases hk : k' = n
        · subst hk; simp [updAssoc, getVal]
        · simp [updAssoc, getVal, hk, ih]

/-- C9: for every positive length `n` and every random source,
`generate_secure_random_string` returns exactly `n` characters, each drawn
from the 62-character alphanumeric alphabet. -/
theorem claim9_generate_secure_random_string :
    ∀ (pick : Nat → Fin 62) (n : Nat), 0 < n →
      (generate_secure_random_string pick n).length = n ∧
      (∀ c ∈ generate_secure_random_string pick n, c ∈ alphabet) ∧
      alphabet.length = 62 := by
  intro pick n _
  have hlen : alphabet.length = 62 := by decide
  refine ⟨by simp [generate_secure_random_string], ?_, hlen⟩
  intro c hc
  simp [generate_secure_random_string] at hc
  obtain ⟨i, hi, hci⟩ := hc
  have hlt : ((pick i) : Nat) < alphabet.length := by
    rw [hlen]; exact (pick i).isLt
  rw [← hci, List.getElem?_eq_getElem hlt]
  simp

/-- C9 witness: the theorem at length 5 with a constant random source. -/
theorem claim9_witness :
    (generate_secure_random_string (fun _ => (0 : Fin 62)) 5).length = 5 ∧
    (∀ c ∈ generate_secure_random_string (fun _ => (0 : Fin 62)) 5, c ∈ alphabet) ∧
    alphabet.length = 62 :=
  claim9_generate_secure_random_string (fun _ => (0 : Fin 62)) 5 (by decide)

/-- Updating an association list under key `n` leaves every other key's
value unchanged. -/
theorem getVal_updAssoc_ne (l : List (List Char × Entry)) (n m : List Char) (e : Entry)
    (h : m ≠ n) : getVal (updAssoc l n e) m = getVal l m := by
  induction l with
  | nil => simp [updAssoc, getVal, Ne.symm h]
  | cons kv t ih =>
      obtain ⟨k', v'⟩ := kv
      by_cases hk : k' = n
      · subst hk; simp [updAssoc, getVal, Ne.symm h]
      · simp [updAssoc, getVal, hk, ih]

/-- C6: the pending accumulator is strictly positional and captured by
value — a declaration clears the accumulator, a non-declaration line never
touches the output mapping, a declaration leaves every other name's
already-captured entry (info list included) unchanged, and a declaration
immediately following another declaration yields an entry with no
section, question, info, or regex. -/
theorem claim6_positional_accumulator :
    (∀ (st : Entry × List (List Char × Entry)) (line n : List Char) (d : Option (List Char)),
        classifyLine (pyStrip line) = .decl n d → (stepLine st line).1 = emptyTemp) ∧
    (∀ (st : Entry × List (List Char × Entry)) (line : List Char),
        isDeclClass (classifyLine (pyStrip line)) = false → (stepLine st line).2 = st.2) ∧
    (∀ (st : Entry × List (List Char × Entry)) (line n : List Char) (d : Option (List Char))
       (m : List Char),
        classifyLine (pyStrip line) = .decl n d → m ≠ n →
        getVal (stepLine st line).2 m = getVal st.2 m) ∧
    parseLines [("# S").toList, ("## Q").toList, ("A=1").toList, ("B=2").toList] =
      [(("A").toList, { sectionV := some (("S").toList), question := some (("Q").toList),
                        default := some (("1").toList) }),
       (("B").toList, { default := some (("2").toList) })] := by
  refine ⟨?_, ?_, ?_, by rfl⟩
  · intro st line n d h
    unfold stepLine
    rw [h]
  · intro st line h
    unfold stepLine
    cases hc : classifyLine (pyStrip line) with
    | sec t => simp
    | quest t => simp
    | infoL t => simp
    | rgx p => cases h2 : compilePattern p <;> simp [h2]
    | decl n d => rw [hc] at h; simp [isDeclClass] at h
    | skip => simp
  · intro st line n d m h hm
    unfold stepLine
    rw [h]
    exact getVal_updAssoc_ne _ _ _ _ hm

/-- C6 witness: the theorem's three general parts at concrete states and
lines. -/
theorem claim6_witness :
    (stepLine (emptyTemp, []) (("A=1").toList)).1 = emptyTemp ∧
    (stepLine (emptyTemp, []) (("# S").toList)).2 = [] ∧
    getVal (stepLine (emptyTemp, [(("B").toList, ({} : Entry))]) (("A=1").toList)).2
        (("B").toList) =
      getVal [(("B").toList, ({} : Entry))] (("B").toList) :=
  ⟨claim6_positional_accumulator.1 _ _ (("A").toList) (some (("1").toList)) (by decide),
   claim6_positional_accumulator.2.1 _ _ (by decide),
   claim6_positional_accumulator.2.2.1 _ _ (("A").toList) (some (("1").toList)) _
     (by decide) (by decide)⟩

/-- C2 counterexample: for a path containing a null byte, CPython's
`open()` raises `ValueError`, which the `except (OSError, IOError)` clause
does not catch, so `parse_env_template` raises instead of returning the
empty mapping — contradicting the claim for that case. -/
theorem claim2_counterexample :
    parse_env_template (fun _ => .error (("no such file").toList)) [('\x00')] =
      .error .valueError ∧
    (Except.error .valueError : Except PyExn (List (List Char × Entry))) ≠ .ok [] :=
  ⟨by rfl, by simp⟩

/-- C2 (amended): for every filepath free of null bytes whose open fails
with an `OSError` (nonexistent file, permission denied, empty path,
device-special open failure), `parse_env_template` never raises and
returns the empty mapping; a path with an embedded null byte instead
raises `ValueError`. -/
theorem claim2_amended :
    ∀ (fs : List Char → Except (List Char) (List (List Char))) (path msg : List Char),
      path.contains '\x00' = false → fs path = .error msg →
      parse_env_template fs path = .ok [] := by
  intro fs path msg hnull herr
  have hmem : '\x00' ∉ path := by simpa using hnull
  unfold parse_env_template
  simp [hmem, herr]

/-- C2 witness: the amended claim at a concrete failing filesystem. -/
theorem claim2_witness :
    parse_env_template (fun _ => .error (("ENOENT").toList)) (("/missing").toList) = .ok [] :=
  claim2_amended _ _ (("ENOENT").toList) (by decide) rfl

/-- The generation counter of `promptCore` is exactly 1 when the resolved
first candidate begins with `random`, else 0, independent of the retry
loop. -/
theorem promptCore_snd_eq (pick : Nat → Fin 62) (data : Entry) (i0 : List Char)
    (rest : List (List Char)) :
    (promptCore pick data (i0 :: rest)).2 =
      if randomTok.isPrefixOf (pyOr (pyStrip i0) (data.default.getD [])) then 1 else 0 := by
  unfold promptCore
  cases hr : data.regex <;> simp [hr]

/-- C10: `generate_secure_random_string` is invoked at most once per
`prompt` call; it is invoked exactly when the resolved first candidate
begins with `random`; and on a validation retry the next candidate is the
raw stripped input (or the default on empty input) with no random-token
recognition. -/
theorem claim10_random_applied_once :
    (∀ (pick : Nat → Fin 62) (data : Entry) (inputs : List (List Char)),
        (promptCore pick data inputs).2 ≤ 1) ∧
    (∀ (pick : Nat → Fin 62) (data : Entry) (i0 : List Char) (rest : List (List Char)),
        (promptCore pick data (i0 :: rest)).2 =
          if randomTok.isPrefixOf (pyOr (pyStrip i0) (data.default.getD [])) then 1 else 0) ∧
    (∀ (pat userValue cand i : List Char) (rest : List (List Char)),
        fullmatchPy pat cand = .ok false →
        promptLoop pat userValue cand (i :: rest) =
          promptLoop pat userValue (pyOr (pyStrip i) userValue) rest) := by
  refine ⟨?_, promptCore_snd_eq, ?_⟩
  · intro pick data inputs
    cases inputs with
    | nil => simp [promptCore]
    | cons i0 rest =>
        rw [promptCore_snd_eq]
        split <;> omega
  · intro pat userValue cand i rest h
    cases rest <;> simp [promptLoop, h]

/-- C10 witness: the count bound and the raw-retry equation at concrete
inputs. -/
theorem claim10_witness :
    (promptCore (fun _ => (0 : Fin 62)) {} [("x").toList]).2 ≤ 1 ∧
    promptLoop (("^[0-9]+$").toList) [] (("abc").toList) [("7").toList] =
      promptLoop (("^[0-9]+$").toList) [] (pyOr (pyStrip (("7").toList)) []) [] :=
  ⟨claim10_random_applied_once.1 _ _ _,
   claim10_random_applied_once.2.2 _ _ _ _ _ (by rfl)⟩

/-- Every generated string has the requested length. -/
theorem generate_length (pick : Nat → Fin 62) (n : Nat) :
    (generate_secure_random_string pick n).length = n := by
  simp [generate_secure_random_string]

/-- Every character of a generated string comes from the alphabet. -/
theorem generate_mem (pick : Nat → Fin 62) (n : Nat) :
    ∀ c ∈ generate_secure_random_string pick n, c ∈ alphabet := by
  intro c hc
  simp [generate_secure_random_string] at hc
  obtain ⟨i, hi, hci⟩ := hc
  have hlt : ((pick i) : Nat) < alphabet.length := by
    have h62 : alphabet.length = 62 := by decide
    rw [h62]; exact (pick i).isLt
  rw [← hci, List.getElem?_eq_getElem hlt]
  simp

/-- For a valid pattern the retry loop returns exactly the first candidate
of the candidate sequence that full-matches (and fails with end-of-input
when none does). -/
theorem promptLoop_eq_find (pat : List Char) (r : Regex) (hc : compilePattern pat = .ok r)
    (userValue : List Char) :
    ∀ (inputs : List (List Char)) (cand v : List Char),
      (promptLoop pat userValue cand inputs = .ok v ↔
        (cand :: inputs.map (fun i => pyOr (pyStrip i) userValue)).find?
          (fullmatchB r) = some v) := by
  intro inputs
  induction inputs with
  | nil =>
      intro cand v
      have hfm : fullmatchPy pat cand = .ok (fullmatchB r cand) := by
        unfold fullmatchPy; rw [hc]
      by_cases hm : fullmatchB r cand
      · simp [promptLoop, hfm, hm, List.find?]
      · simp [promptLoop, hfm, hm, List.find?]
  | cons i rest ih =>
      intro cand v
      have hfm : fullmatchPy pat cand = .ok (fullmatchB r cand) := by
        unfold fullmatchPy; rw [hc]
      by_cases hm : fullmatchB r cand
      · simp [promptLoop, hfm, hm, List.find?]
      · simp only [promptLoop, hfm, hm, Bool.false_eq_true, if_false, List.map_cons,
          List.find?_cons, List.find?]
        exact ih _ v

/-- C4: with a declared valid regex, `prompt` returns a value iff it is
the first candidate of the candidate sequence (resolved first input, then
each retry input stripped with empty-input fallback to the default) that
the regex full-matches; any returned value full-matches; and with regex
`^[a-zA-Z0-9_]+$` and raw inputs `"bad; x"` then `"OK_1"` the returned
value is `"OK_1"`. -/
theorem claim4_regex_first_match :
    (∀ (pick : Nat → Fin 62) (data : Entry) (pat : List Char) (r : Regex)
       (i0 : List Char) (rest : List (List Char)) (v : List Char),
        data.regex = some pat → compilePattern pat = .ok r →
        ((promptCore pick data (i0 :: rest)).1 = .ok v ↔
          (firstCandidate pick data i0 ::
            rest.map (fun i => pyOr (pyStrip i) (data.default.getD []))).find?
              (fullmatchB r) = some v)) ∧
    (∀ (pick : Nat → Fin 62) (data : Entry) (pat : List Char) (r : Regex)
       (i0 : List Char) (rest : List (List Char)) (v : List Char),
        data.regex = some pat → compilePattern pat = .ok r →
        (promptCore pick data (i0 :: rest)).1 = .ok v → fullmatchB r v = true) ∧
    (∀ pick : Nat → Fin 62,
        (promptCore pick { regex := some (("^[a-zA-Z0-9_]+$").toList),
                           default := some (("safe").toList) }
          [("bad; x").toList, ("OK_1").toList]).1 = .ok (("OK_1").toList)) := by
  have key : ∀ (pick : Nat → Fin 62) (data : Entry) (pat : List Char) (r : Regex)
       (i0 : List Char) (rest : List (List Char)) (v : List Char),
        data.regex = some pat → compilePattern pat = .ok r →
        ((promptCore pick data (i0 :: rest)).1 = .ok v ↔
          (firstCandidate pick data i0 ::
            rest.map (fun i => pyOr (pyStrip i) (data.default.getD []))).find?
              (fullmatchB r) = some v) := by
    intro pick data pat r i0 rest v hreg hc
    have hred : (promptCore pick data (i0 :: rest)).1 =
        promptLoop pat (data.default.getD []) (firstCandidate pick data i0) rest := by
      unfold promptCore
      simp [hreg]
    rw [hred]
    exact promptLoop_eq_find pat r hc _ rest (firstCandidate pick data i0) v
  refine ⟨key, ?_, ?_⟩
  · intro pick data pat r i0 rest v hreg hc hok
    exact List.find?_some ((key pick data pat r i0 rest v hreg hc).mp hok)
  · intro pick
    rfl

/-- C4 witness: the returned value `OK_1` of the concrete run full-matches
the compiled pattern. -/
theorem claim4_witness :
    fullmatchB rAlnum (("OK_1").toList) = true :=
  claim4_regex_first_match.2.1 (fun _ => (0 : Fin 62))
    { regex := some (("^[a-zA-Z0-9_]+$").toList), default := some (("safe").toList) }
    (("^[a-zA-Z0-9_]+$").toList) rAlnum (("bad; x").toList) [("OK_1").toList]
    (("OK_1").toList) rfl (by rfl)
    (claim4_regex_first_match.2.2 (fun _ => (0 : Fin 62)))

/-- C5: when the resolved first input begins with `random`, the value is
replaced by the generator's output, with the parenthesized integer of
`random\((\d+)\)` as the length when present and 32 otherwise; the input
`random(8)` at a prompt with no regex resolves to exactly 8 characters
from the alphanumeric alphabet. -/
theorem claim5_random_token :
    (∀ (pick : Nat → Fin 62) (data : Entry) (i0 : List Char) (rest : List (List Char)),
        data.regex = none →
        randomTok.isPrefixOf (pyOr (pyStrip i0) (data.default.getD [])) = true →
        (promptCore pick data (i0 :: rest)).1 =
          .ok (generate_secure_random_string pick
            ((randomArgLen (pyOr (pyStrip i0) (data.default.getD []))).getD 32))) ∧
    (∀ pick : Nat → Fin 62,
        (promptCore pick {} [("random(8)").toList]).1 =
          .ok (generate_secure_random_string pick 8) ∧
        (generate_secure_random_string pick 8).length = 8 ∧
        ∀ c ∈ generate_secure_random_string pick 8, c ∈ alphabet) := by
  constructor
  · intro pick data i0 rest hreg hpre
    unfold promptCore firstCandidate
    simp [hreg, hpre]
  · intro pick
    exact ⟨by rfl, generate_length pick 8, generate_mem pick 8⟩

/-- C5 witness: the general substitution rule at the concrete input
`random(8)` with an empty entry. -/
theorem claim5_witness :
    (promptCore (fun _ => (0 : Fin 62)) {} (("random(8)").toList :: [])).1 =
      .ok (generate_secure_random_string (fun _ => (0 : Fin 62))
        ((randomArgLen (pyOr (pyStrip (("random(8)").toList))
          (({} : Entry).default.getD []))).getD 32)) :=
  claim5_random_token.1 _ {} _ [] rfl (by rfl)

/-- C1 counterexample: `prompt` on an entry whose regex is the invalid
pattern `^[0-9+($` raises `re.error` at the first validation test (the
uncompilable pattern propagates out of `re.fullmatch`), so the claim that
it never raises and keeps re-prompting is false. -/
theorem claim1_counterexample :
    (promptCore (fun _ => (0 : Fin 62)) { regex := some (("^[0-9+($").toList) }
        [("1").toList]).1 = .error (.reError .unterminatedSet) := by rfl

/-- C1 (amended): `parse_env_template` records an invalid pattern in
`regex` together with a non-empty `regex_error` without raising; but
`prompt`, given an entry whose `regex` is an invalid pattern, raises
`re.error` at the first validation test for every input sequence offering
at least one line, instead of re-prompting. -/
theorem claim1_amended :
    (∀ (st : Entry × List (List Char × Entry)) (line p : List Char) (e : RErr),
        classifyLine (pyStrip line) = .rgx p → compilePattern p = .error e →
        (stepLine st line).1.regex = some p ∧
        (stepLine st line).1.regex_error =
          some ((("Invalid regex: ").toList) ++ rerrText e) ∧
        ((("Invalid regex: ").toList) ++ rerrText e) ≠ []) ∧
    (∀ (pick : Nat → Fin 62) (data : Entry) (pat : List Char) (e : RErr)
       (i0 : List Char) (rest : List (List Char)),
        data.regex = some pat → compilePattern pat = .error e →
        (promptCore pick data (i0 :: rest)).1 = .error (.reError e)) := by
  constructor
  · intro st line p e hcls hcomp
    refine ⟨?_, ?_, by simp⟩ <;> simp [stepLine, hcls, hcomp]
  · intro pick data pat e i0 rest hreg hcomp
    unfold promptCore
    simp only [hreg]
    cases rest <;> simp [promptLoop, fullmatchPy, hcomp]

/-- C1 witness: both amended parts at the concrete invalid pattern
`^[0-9+($` from the specification's example. -/
theorem claim1_witness :
    ((stepLine (emptyTemp, []) (("# `^[0-9+($`").toList)).1.regex =
        some (("^[0-9+($").toList) ∧
      (stepLine (emptyTemp, []) (("# `^[0-9+($`").toList)).1.regex_error =
        some ((("Invalid regex: ").toList) ++ rerrText .unterminatedSet) ∧
      ((("Invalid regex: ").toList) ++ rerrText .unterminatedSet) ≠ []) ∧
    (promptCore (fun _ => (0 : Fin 62)) { regex := some (("^[0-9+($").toList) }
        [("1").toList]).1 = .error (.reError .unterminatedSet) :=
  ⟨claim1_amended.1 _ _ (("^[0-9+($").toList) .unterminatedSet (by decide) (by rfl),
   claim1_amended.2 _ { regex := some (("^[0-9+($").toList) } _ .unterminatedSet _ []
     rfl (by rfl)⟩

end Scaffold
